import Mathlib

/-!
Verification of the `dockerpc` stream demultiplexer and client facade
(`dockerpc.go`) against its specification.

The Go source is shallowly embedded:

* A raw duplex connection (`net.Conn` read side) is modelled as a list of
  pending byte bursts (`Chunk`).  A call `conn.Read(p)` with a buffer of
  capacity `cap` delivers up to `cap` bytes of the head burst and leaves the
  remainder of that burst at the front of the stream; a read on an empty
  stream blocks, modelled as `none`.
* Machine integers are `Nat` with explicit `% 4294967296` where the Go code
  converts to `uint32` (`bufSize := uint32(len(b))`).
* `bytes.Buffer` is a `List Nat` of accumulated bytes.
* Fallible operations return `Option` / explicit error constructors.
-/

namespace dockerpc

/-- A burst of bytes pending on the raw connection. -/
abbrev Chunk := List Nat

/-- One raw `conn.Read` with a buffer of capacity `cap`: delivers up to `cap`
bytes of the head burst, keeping any remainder of that burst at the front of
the stream.  `none` models a read that blocks (no data pending). -/
def connRead : List Chunk → Nat → Option (List Nat × List Chunk)
  | [], _ => none
  | c :: rest, cap =>
    if c.length ≤ cap then some (c, rest)
    else some (c.take cap, c.drop cap :: rest)

/-- Big-endian decode of the first four bytes, mirroring
`binary.Read(sizeReader, binary.BigEndian, &size)` on `p[4:]`. -/
def beUint32 : List Nat → Nat
  | b0 :: b1 :: b2 :: b3 :: _ => ((b0 * 256 + b1) * 256 + b2) * 256 + b3
  | _ => 0

/-- Big-endian encoding of a `uint32` payload length into four bytes
(bytes 4..7 of a Docker attach frame header). -/
def encBE4 (n : Nat) : List Nat :=
  [n / 16777216 % 256, n / 65536 % 256, n / 256 % 256, n % 256]

/-- The constant `STDIN = 0` from the source. -/
def STDIN : Nat := 0

/-- The constant `STDOUT = 1` from the source. -/
def STDOUT : Nat := 1

/-- The constant `STDERR = 2` from the source. -/
def STDERR : Nat := 2

/-- The 8-byte Docker attach frame header: channel tag, three reserved zero
bytes, and the big-endian declared payload length `L`. -/
def headerBytesL (tag L : Nat) : Chunk :=
  tag :: 0 :: 0 :: 0 :: encBE4 L

/-- Header for a frame carrying `payload`: declared length is the payload's
actual length. -/
def headerBytes (tag : Nat) (payload : List Nat) : Chunk :=
  headerBytesL tag payload.length

/-- The `dockerPipes` struct from the source: the raw connection, the shared
stderr buffer (the Go field is a pointer to `Client.stdErrBuf`), the
`bytesRemaining` continuation count (a `uint32` in Go) and the recorded
channel tag `pipeName`. -/
structure dockerPipes where
  conn : List Chunk
  stdErrBuf : List Nat
  bytesRemaining : Nat
  pipeName : Nat
deriving DecidableEq, Repr

/-- Errors `dockerPipes.Read` can construct itself (connection-level read
errors are not modelled; every modelled burst is data). -/
inductive ReadErr where
  /-- `errors.New("Expected 8 byte header from Docker")` -/
  | headerNot8
  /-- `fmt.Sprintf("Unsupported pipe: %d ", pipeName)` -/
  | unsupportedPipe (tag : Nat)
deriving DecidableEq, Repr

/-- Result of one `Read(b)` call: `ok n delivered` is Go's `return n, nil`
where `delivered` are the bytes the raw read wrote into `b` (so the caller's
produced bytes are `delivered.take n`); `fail e` is `return 0, err`. -/
inductive ReadResult where
  | ok (n : Nat) (delivered : List Nat)
  | fail (e : ReadErr)
deriving DecidableEq, Repr

/-- Lines 220-236 of `dockerPipes.Read`: when `bytesRemaining == 0`, read the
8-byte header from the connection into a 1024-byte buffer.  `Sum.inl` is an
early error return (short or long header: `c != 8`), `Sum.inr` the state in
which the payload read proceeds.  On a successful parse the channel tag
`p[0]` and the big-endian length from `p[4:]` are recorded; on `c != 8` the
tag and remaining count are left untouched. -/
def headerStep (pipe : dockerPipes) : Option (Sum (ReadResult × dockerPipes) dockerPipes) :=
  if pipe.bytesRemaining = 0 then
    match connRead pipe.conn 1024 with
    | none => none
    | some (p, conn1) =>
      if p.length = 8 then
        some (Sum.inr { pipe with
          conn := conn1
          pipeName := p.headI
          bytesRemaining := beUint32 (p.drop 4) })
      else
        some (Sum.inl (ReadResult.fail ReadErr.headerNot8, { pipe with conn := conn1 }))
  else
    some (Sum.inr pipe)

/-- Lines 256-267 of `dockerPipes.Read`: the `switch pipeName` dispatch,
applied after the remaining-count update.  `bBytes` are the bytes the raw
payload read wrote into the caller's buffer `b` (so `c = bBytes.length`). -/
def dispatch (pipeName : Nat) (bBytes : List Nat) (pipe2 : dockerPipes) :
    Option (ReadResult × dockerPipes) :=
  if pipeName = STDIN then
    some (ReadResult.ok 0 bBytes, pipe2)
  else if pipeName = STDOUT then
    some (ReadResult.ok bBytes.length bBytes, pipe2)
  else if pipeName = STDERR then
    some (ReadResult.ok 0 bBytes, { pipe2 with stdErrBuf := pipe2.stdErrBuf ++ bBytes })
  else
    some (ReadResult.fail (ReadErr.unsupportedPipe pipeName), pipe2)

/-- Lines 238-267 of `dockerPipes.Read`: the raw payload read into the
caller's buffer of capacity `cap`, the `uint32` remaining-count update
(`bufSize := uint32(len(b))`; decrement by `bufSize` if `bufSize <
bytesRemaining`, else reset to zero), then the tag dispatch. -/
def payloadStep (pipe : dockerPipes) (cap : Nat) : Option (ReadResult × dockerPipes) :=
  match connRead pipe.conn cap with
  | none => none
  | some (bBytes, conn2) =>
    if cap % 4294967296 < pipe.bytesRemaining then
      dispatch pipe.pipeName bBytes
        { pipe with conn := conn2, bytesRemaining := pipe.bytesRemaining - cap % 4294967296 }
    else
      dispatch pipe.pipeName bBytes
        { pipe with conn := conn2, bytesRemaining := 0 }

/-- `dockerPipes.Read` (lines 216-268): header step when no payload is
pending, then one raw payload read with remaining-count update and tag
dispatch. -/
def dockerPipes.Read (pipe : dockerPipes) (cap : Nat) : Option (ReadResult × dockerPipes) :=
  match headerStep pipe with
  | none => none
  | some (Sum.inl r) => some r
  | some (Sum.inr pipe1) => payloadStep pipe1 cap

/-- Drive `n` successive `Read` calls, each with a caller buffer of capacity
`cap`, concatenating the produced bytes (`delivered.take n` of each `ok`
result).  Fails (`none`) if any call returns an error or blocks.  This models
the read loop of the RPC codec sitting on top of the pipes. -/
def driveN : dockerPipes → Nat → Nat → Option (List Nat × dockerPipes)
  | pipe, _, 0 => some ([], pipe)
  | pipe, cap, Nat.succ n =>
    match pipe.Read cap with
    | some (ReadResult.ok k d, pipe1) =>
      match driveN pipe1 cap n with
      | some (out, pipe2) => some (d.take k ++ out, pipe2)
      | none => none
    | _ => none

/-- One frame of the multiplexed attach stream: a channel tag and a payload. -/
structure Frame where
  tag : Nat
  payload : List Nat
deriving DecidableEq, Repr

/-- Wire encoding of a frame list under the delivery alignment the code
expects: each 8-byte header arrives as its own burst, followed by the payload
as one burst. -/
def encode : List Frame → List Chunk
  | [] => []
  | f :: fs => headerBytes f.tag f.payload :: f.payload :: encode fs

/-- Concatenation of the payloads of the output-tagged frames, in order. -/
def outputBytes : List Frame → List Nat
  | [] => []
  | f :: fs => (if f.tag = STDOUT then f.payload else []) ++ outputBytes fs

/-- Concatenation of the payloads of the error-tagged frames, in order. -/
def errBytes : List Frame → List Nat
  | [] => []
  | f :: fs => (if f.tag = STDERR then f.payload else []) ++ errBytes fs

/-- The channel tag recorded in `pipeName` after processing the frames,
starting from `t`. -/
def lastTag (t : Nat) : List Frame → Nat
  | [] => t
  | f :: fs => lastTag f.tag fs

/-- A frame the demultiplexer handles in one `Read` call with a caller buffer
of capacity `cap`: a known channel tag, a nonempty payload (a raw read never
delivers zero bytes), a declared length that fits in a `uint32`, and a
payload no larger than the caller's buffer. -/
def FrameOK (cap : Nat) (f : Frame) : Prop :=
  (f.tag = STDIN ∨ f.tag = STDOUT ∨ f.tag = STDERR) ∧
    f.payload ≠ [] ∧ f.payload.length < 4294967296 ∧ f.payload.length ≤ cap

instance (cap : Nat) (f : Frame) : Decidable (FrameOK cap f) := by
  unfold FrameOK; infer_instance

/-- Split a payload into the bursts a fully-filling connection delivers to a
caller buffer of capacity `cap`: all bursts have `cap` bytes except the last.
Fuel-indexed to make the recursion structural; `chunksOf` supplies
`p.length` as fuel. -/
def chunksOfAux (cap : Nat) : Nat → List Nat → List Chunk
  | 0, _ => []
  | _ + 1, [] => []
  | fuel + 1, a :: rest => (a :: rest).take cap :: chunksOfAux cap fuel ((a :: rest).drop cap)

/-- `chunksOf cap p`: `p` split into successive bursts of `cap` bytes. -/
def chunksOf (cap : Nat) (p : List Nat) : List Chunk :=
  chunksOfAux cap p.length p

/-- The `*rpc.Client` handle: all the model needs of it is the outcome its
`Close()` would report (`none` = success). -/
structure RpcHandle where
  closeErr : Option String
deriving DecidableEq, Repr

/-- The `*docker.Client` lifecycle collaborator: all the model needs of it is
the outcome its `RemoveContainer` would report.  `Client.Close` discards that
outcome, so `removeErr` is never consulted — which is exactly the claim under
test. -/
structure DockerClient where
  removeErr : Option String
deriving DecidableEq, Repr

/-- The `dockerpc.Client` struct: container ID, the two nilable handles, and
the pipes (which carry the stderr buffer the Go code shares by pointer with
`Client.stdErrBuf`). -/
structure Client where
  ID : String
  dockerClient : Option DockerClient
  rpcClient : Option RpcHandle
  pipes : dockerPipes
deriving DecidableEq, Repr

/-- Externally visible actions of `Client.Close`, in order. -/
inductive CloseEffect where
  | removeContainer (id : String) (force : Bool)
  | rpcClose
deriving DecidableEq, Repr

/-- One `if d.rpcClient != nil { err := d.rpcClient.Close(); d.rpcClient =
nil; if err != nil { return err } }` block of `Client.Close`. -/
def closeRpcOnce (d : Client) : Option String × Client × List CloseEffect :=
  match d.rpcClient with
  | some rc => (rc.closeErr, { d with rpcClient := none }, [CloseEffect.rpcClose])
  | none => (none, d, [])

/-- `Client.Close` (lines 51-74): if a docker client is installed, request
forced container removal (`RemoveContainerOptions{ID: d.ID, Force: true}`),
discarding the result; then the rpc-close block, duplicated verbatim in the
source (the second copy is dead: the first sets `rpcClient` to nil).
Returns the error value `Close` returns, the updated client, and the ordered
effect trace. -/
def Client.Close (d : Client) : Option String × Client × List CloseEffect :=
  let removeEffs : List CloseEffect :=
    match d.dockerClient with
    | some _ => [CloseEffect.removeContainer d.ID true]
    | none => []
  match closeRpcOnce d with
  | (some e, d1, effs1) => (some e, d1, removeEffs ++ effs1)
  | (none, d1, effs1) =>
    match closeRpcOnce d1 with
    | (some e, d2, effs2) => (some e, d2, removeEffs ++ effs1 ++ effs2)
    | (none, d2, effs2) => (none, d2, removeEffs ++ effs1 ++ effs2)

/-- `Client.StdError` (lines 123-125): returns the current contents of the
stderr buffer.  A pure projection: it neither clears nor otherwise mutates
the buffer (the Go code returns `string(d.stdErrBuf.Bytes())`). -/
def Client.StdError (d : Client) : List Nat :=
  d.pipes.stdErrBuf

/-- `Client.Call` (lines 118-121): `d.stdErrBuf.Reset()` then delegation to
`d.rpcClient.Call`.  The RPC layer is modelled as its effect on the pipes: a
loop of `n` codec reads with buffer capacity `cap` (`driveN`), returning the
produced response bytes.  The reset clears the buffer shared with the pipes
before any of those reads happen. -/
def Client.Call (d : Client) (cap n : Nat) : Option (List Nat × Client) :=
  match driveN { d.pipes with stdErrBuf := [] } cap n with
  | some (out, pipes1) => some (out, { d with pipes := pipes1 })
  | none => none

/-- An HTTP response as returned by `httputil.ClientConn.Do` together with a
nil error. -/
structure HttpResponse where
  statusCode : Nat
  body : String
deriving DecidableEq, Repr

/-- Environment of one `AttachStreamingContainer` run: the outcomes of its
fallible external steps.  `doErr`/`doResp` are the `(resp, err)` pair
returned by `httputil.ClientConn.Do`; per `net/http/httputil` semantics `Do`
reports a non-nil error only for transport- or framing-level failures (dial
already succeeded here), and an HTTP response that parses — whatever its
status code — comes back with a nil error. -/
structure AttachEnv where
  /-- `url.Parse(d.endpoint + uri)` succeeds. -/
  parseOk : Bool
  /-- `tls.Dial` / `net.Dial` succeeds. -/
  dialOk : Bool
  /-- `http.NewRequest` succeeds. -/
  reqOk : Bool
  /-- the `err` returned by `clientconn.Do(req)`. -/
  doErr : Option String
  /-- the `resp` returned by `clientconn.Do(req)`. -/
  doResp : Option HttpResponse
deriving DecidableEq, Repr

/-- Result of `AttachStreamingContainer`: `ok` means the function returned
nil after storing the hijacked connection in `d.clientConn`; the error
constructors mirror the four `return err` sites. -/
inductive AttachResult where
  | ok
  | urlParseError
  | dialError
  | newRequestError
  | doError (e : String)
deriving DecidableEq, Repr

/-- `Client.AttachStreamingContainer` (lines 77-115): propagate the URL-parse
error, the dial error, the request-construction error, or a non-nil error
from `clientconn.Do`; otherwise hijack the connection and return nil.  The
response value itself is only passed to `log.Println` on the error path —
its status code is never inspected. -/
def AttachStreamingContainer (env : AttachEnv) : AttachResult :=
  if env.parseOk = false then AttachResult.urlParseError
  else if env.dialOk = false then AttachResult.dialError
  else if env.reqOk = false then AttachResult.newRequestError
  else
    match env.doErr with
    | some e => AttachResult.doError e
    | none => AttachResult.ok

/-! ### Basic lemmas about the embedding -/

lemma connRead_full (c : Chunk) (cs : List Chunk) (cap : Nat) (h : c.length ≤ cap) :
    connRead (c :: cs) cap = some (c, cs) := by
  simp [connRead, h]

lemma beUint32_encBE4 (L : Nat) (hL : L < 4294967296) : beUint32 (encBE4 L) = L := by
  simp only [beUint32, encBE4]
  omega

lemma headerBytesL_length (tag L : Nat) : (headerBytesL tag L).length = 8 := by
  simp [headerBytesL, encBE4]

/-- Parsing a well-formed 8-byte header records the tag and the declared
length and consumes exactly that burst. -/
lemma headerStep_cons (tag L : Nat) (cs : List Chunk) (errb : List Nat) (t : Nat)
    (hL : L < 4294967296) :
    headerStep ⟨headerBytesL tag L :: cs, errb, 0, t⟩ = some (Sum.inr ⟨cs, errb, L, tag⟩) := by
  have h8 : (headerBytesL tag L).length = 8 := headerBytesL_length tag L
  have hle : (headerBytesL tag L).length ≤ 1024 := by omega
  have hhead : (headerBytesL tag L).headI = tag := rfl
  have hdrop : (headerBytesL tag L).drop 4 = encBE4 L := rfl
  simp [headerStep, connRead_full _ _ _ hle, h8, hhead, hdrop, beUint32_encBE4 L hL]

lemma payloadStep_eval (d : Chunk) (cs : List Chunk) (errb : List Nat) (rem name cap : Nat)
    (hd : d.length ≤ cap) :
    payloadStep ⟨d :: cs, errb, rem, name⟩ cap
      = dispatch name d
          ⟨cs, errb, if cap % 4294967296 < rem then rem - cap % 4294967296 else 0, name⟩ := by
  simp only [payloadStep, connRead_full d cs cap hd]
  split <;> rfl

/-- A `Read` while payload is pending: no header is consumed, the head burst
is delivered, and the remaining count is decremented by the buffer capacity
(as a `uint32`), or reset to zero when the buffer is at least as large. -/
lemma Read_continuation (d : Chunk) (cs : List Chunk) (errb : List Nat) (rem name cap : Nat)
    (hrem : rem ≠ 0) (hd : d.length ≤ cap) (hc32 : cap < 4294967296) :
    dockerPipes.Read ⟨d :: cs, errb, rem, name⟩ cap
      = dispatch name d ⟨cs, errb, if cap < rem then rem - cap else 0, name⟩ := by
  have hmod : cap % 4294967296 = cap := Nat.mod_eq_of_lt hc32
  simp only [dockerPipes.Read, headerStep, hrem, if_false, payloadStep_eval d cs errb rem name cap hd, hmod]

lemma Read_after_header (tag L : Nat) (cs : List Chunk) (errb : List Nat) (t cap : Nat)
    (hL : L < 4294967296) :
    dockerPipes.Read ⟨headerBytesL tag L :: cs, errb, 0, t⟩ cap
      = payloadStep ⟨cs, errb, L, tag⟩ cap := by
  simp [dockerPipes.Read, headerStep_cons tag L cs errb t hL]

/-- A whole aligned frame (8-byte header burst, then the payload burst, with
a caller buffer at least payload-sized) is handled by one `Read` call:
header parsed, payload delivered, remaining count back to zero. -/
lemma Read_frame (tag : Nat) (p : List Nat) (cs : List Chunk) (errb : List Nat) (t cap : Nat)
    (hp32 : p.length < 4294967296) (hcap : p.length ≤ cap) (hc32 : cap < 4294967296) :
    dockerPipes.Read ⟨headerBytes tag p :: p :: cs, errb, 0, t⟩ cap
      = dispatch tag p ⟨cs, errb, 0, tag⟩ := by
  rw [headerBytes, Read_after_header tag p.length (p :: cs) errb t cap hp32,
    payloadStep_eval p cs errb p.length tag cap hcap]
  have hnot : ¬ cap % 4294967296 < p.length := by
    have := Nat.mod_eq_of_lt hc32
    omega
  simp [hnot]

lemma dispatch_stdin (d : List Nat) (pipe2 : dockerPipes) :
    dispatch STDIN d pipe2 = some (ReadResult.ok 0 d, pipe2) := by
  simp [dispatch, STDIN, STDOUT, STDERR]

lemma dispatch_stdout (d : List Nat) (pipe2 : dockerPipes) :
    dispatch STDOUT d pipe2 = some (ReadResult.ok d.length d, pipe2) := by
  simp [dispatch, STDIN, STDOUT, STDERR]

lemma dispatch_stderr (d : List Nat) (pipe2 : dockerPipes) :
    dispatch STDERR d pipe2
      = some (ReadResult.ok 0 d, { pipe2 with stdErrBuf := pipe2.stdErrBuf ++ d }) := by
  simp [dispatch, STDIN, STDOUT, STDERR]

lemma dispatch_unknown (tag : Nat) (d : List Nat) (pipe2 : dockerPipes)
    (htag : ¬(tag = STDIN ∨ tag = STDOUT ∨ tag = STDERR)) :
    dispatch tag d pipe2 = some (ReadResult.fail (ReadErr.unsupportedPipe tag), pipe2) := by
  push_neg at htag
  simp [dispatch, htag.1, htag.2.1, htag.2.2]

lemma dispatch_eval (tag : Nat) (d : List Nat) (pipe2 : dockerPipes)
    (htag : tag = STDIN ∨ tag = STDOUT ∨ tag = STDERR) :
    dispatch tag d pipe2
      = some (ReadResult.ok (if tag = STDOUT then d.length else 0) d,
          if tag = STDERR then { pipe2 with stdErrBuf := pipe2.stdErrBuf ++ d } else pipe2) := by
  rcases htag with h | h | h <;> subst h <;>
    simp [dispatch, STDIN, STDOUT, STDERR]

/-- A header burst of any length other than 8 makes `Read` fail with the
8-byte-header error; the recorded tag and remaining count are untouched. -/
lemma Read_badHeader (c : Chunk) (cs : List Chunk) (errb : List Nat) (t cap : Nat)
    (hlen : c.length ≠ 8) :
    dockerPipes.Read ⟨c :: cs, errb, 0, t⟩ cap
      = some (ReadResult.fail ReadErr.headerNot8,
          ⟨if c.length ≤ 1024 then cs else c.drop 1024 :: cs, errb, 0, t⟩) := by
  by_cases h : c.length ≤ 1024
  · simp [dockerPipes.Read, headerStep, connRead, h, hlen]
  · have h1024 : (c.take 1024).length = 1024 := by
      simp only [List.length_take]
      omega
    simp [dockerPipes.Read, headerStep, connRead, h, h1024]

/-- After a zero-length header, the payload read still runs: the next burst
on the connection is consumed and dispatched under the zero-length frame's
tag. -/
lemma Read_zeroLen (tag : Nat) (d : Chunk) (cs : List Chunk) (errb : List Nat) (t cap : Nat)
    (hd : d.length ≤ cap) :
    dockerPipes.Read ⟨headerBytesL tag 0 :: d :: cs, errb, 0, t⟩ cap
      = dispatch tag d ⟨cs, errb, 0, tag⟩ := by
  rw [Read_after_header tag 0 (d :: cs) errb t cap (by norm_num),
    payloadStep_eval d cs errb 0 tag cap hd]
  simp

/-- Driving one `Read` per frame over an aligned encoding of `fs` delivers
exactly the output-tagged payloads as produced bytes, appends exactly the
error-tagged payloads to the stderr buffer, and leaves the trailing stream
`rest` untouched with no payload pending. -/
lemma driveN_encode (cap : Nat) (hc32 : cap < 4294967296) :
    ∀ fs : List Frame, (∀ f ∈ fs, FrameOK cap f) →
      ∀ (rest : List Chunk) (errb : List Nat) (t : Nat),
      driveN ⟨encode fs ++ rest, errb, 0, t⟩ cap fs.length
        = some (outputBytes fs, ⟨rest, errb ++ errBytes fs, 0, lastTag t fs⟩) := by
  intro fs
  induction fs with
  | nil =>
    intro _ rest errb t
    simp [driveN, encode, outputBytes, errBytes, lastTag]
  | cons f fs ih =>
    intro hfs rest errb t
    obtain ⟨htag, hne, hp32, hcap⟩ := hfs f (by simp)
    have hfs' : ∀ g ∈ fs, FrameOK cap g := fun g hg => hfs g (by simp [hg])
    show driveN ⟨headerBytes f.tag f.payload :: f.payload :: (encode fs ++ rest), errb, 0, t⟩
        cap (fs.length + 1) = _
    simp only [driveN]
    rw [Read_frame f.tag f.payload (encode fs ++ rest) errb t cap hp32 hcap hc32,
      dispatch_eval f.tag f.payload _ htag]
    rcases htag with h | h | h <;> rw [h] <;>
      simp [STDIN, STDOUT, STDERR, ih hfs' rest, ih hfs' rest (errb ++ f.payload),
        outputBytes, errBytes, lastTag, List.take_length, List.append_assoc, h]

lemma chunksOfAux_eq (cap : Nat) (hcap : 0 < cap) :
    ∀ fuel1 fuel2 : Nat, ∀ p : List Nat,
      p.length ≤ fuel1 → p.length ≤ fuel2 →
      chunksOfAux cap fuel1 p = chunksOfAux cap fuel2 p := by
  intro fuel1
  induction fuel1 with
  | zero =>
    intro fuel2 p h1 _
    have hp : p = [] := List.length_eq_zero.1 (Nat.le_zero.1 h1)
    subst hp
    cases fuel2 <;> rfl
  | succ n ih =>
    intro fuel2 p h1 h2
    cases p with
    | nil => cases fuel2 <;> rfl
    | cons a rest =>
      cases fuel2 with
      | zero => simp at h2
      | succ m =>
        simp only [chunksOfAux]
        congr 1
        apply ih
        · simp only [List.length_drop, List.length_cons] at *
          omega
        · simp only [List.length_drop, List.length_cons] at *
          omega

lemma chunksOf_cons (cap : Nat) (hcap : 0 < cap) (p : List Nat) (hne : p ≠ []) :
    chunksOf cap p = p.take cap :: chunksOf cap (p.drop cap) := by
  cases p with
  | nil => exact absurd rfl hne
  | cons a rest =>
    show chunksOfAux cap (rest.length + 1) (a :: rest) = _
    simp only [chunksOfAux]
    congr 1
    apply chunksOfAux_eq cap hcap
    · simp only [List.length_drop, List.length_cons]
      omega
    · exact le_refl _

/-- The continuation loop: with `p.length` bytes of output payload pending
and the connection delivering `p` in buffer-capacity-sized bursts, one `Read`
per burst delivers all of `p` without consuming any further header; the
trailing stream `rest` is untouched and the remaining count ends at zero. -/
lemma driveN_chunksOf (cap : Nat) (hcap0 : 0 < cap) (hc32 : cap < 4294967296) :
    ∀ fuel : Nat, ∀ p : List Nat, ∀ rest : List Chunk, ∀ errb : List Nat,
      p ≠ [] → p.length ≤ fuel →
      driveN ⟨chunksOf cap p ++ rest, errb, p.length, STDOUT⟩ cap (chunksOf cap p).length
        = some (p, ⟨rest, errb, 0, STDOUT⟩) := by
  intro fuel
  induction fuel with
  | zero =>
    intro p rest errb hne hle
    cases p with
    | nil => exact absurd rfl hne
    | cons a r => simp at hle
  | succ n ih =>
    intro p rest errb hne hle
    rw [chunksOf_cons cap hcap0 p hne]
    have hlen_ne : p.length ≠ 0 := fun h => hne (List.length_eq_zero.1 h)
    have htake : (p.take cap).length ≤ cap := by
      simp only [List.length_take]
      omega
    by_cases hbig : cap < p.length
    · have hread : dockerPipes.Read
          ⟨p.take cap :: (chunksOf cap (p.drop cap) ++ rest), errb, p.length, STDOUT⟩ cap
          = some (ReadResult.ok (p.take cap).length (p.take cap),
              ⟨chunksOf cap (p.drop cap) ++ rest, errb, p.length - cap, STDOUT⟩) := by
        rw [Read_continuation _ _ _ _ _ _ hlen_ne htake hc32, dispatch_stdout]
        simp [hbig]
      have hdne : p.drop cap ≠ [] := by
        intro h
        rw [List.drop_eq_nil_iff] at h
        omega
      have hdlen : (p.drop cap).length = p.length - cap := by
        simp [List.length_drop]
      have ihh := ih (p.drop cap) rest errb hdne (by omega)
      rw [hdlen] at ihh
      rw [List.cons_append, List.length_cons]
      simp only [driveN]
      rw [hread]
      simp only [ihh, List.take_length]
      simp [List.take_append_drop]
    · push_neg at hbig
      have htakeall : p.take cap = p := List.take_of_length_le hbig
      have hdropnil : p.drop cap = [] := List.drop_eq_nil_iff.2 hbig
      rw [htakeall, hdropnil]
      have hchnil : chunksOf cap ([] : List Nat) = [] := rfl
      rw [hchnil]
      have hread : dockerPipes.Read ⟨p :: rest, errb, p.length, STDOUT⟩ cap
          = some (ReadResult.ok p.length p, ⟨rest, errb, 0, STDOUT⟩) := by
        rw [Read_continuation _ _ _ _ _ _ hlen_ne hbig hc32, dispatch_stdout]
        simp [Nat.not_lt.2 hbig]
      simp only [List.cons_append, List.nil_append, List.length_cons, List.length_nil, driveN]
      rw [hread]
      simp [List.take_length]

lemma driveN_succ_congr (pipe0 pipe1 : dockerPipes) (cap n : Nat)
    (h : pipe0.Read cap = pipe1.Read cap) :
    driveN pipe0 cap (n + 1) = driveN pipe1 cap (n + 1) := by
  simp only [driveN, h]

/-! ### Claim theorems -/

/-- Claim C1: over any valid aligned frame sequence, the bytes `Read`
produces for its caller are exactly the output-tagged (tag 1) payload bytes,
in order; error-tagged payloads go to the stderr buffer only, and for input-
and error-tagged frames `Read` reports zero bytes produced with no error. -/
theorem demux_output_exact (cap : Nat) (fs : List Frame) (errb : List Nat) (t : Nat)
    (hfs : ∀ f ∈ fs, FrameOK cap f) (hc32 : cap < 4294967296) :
    driveN ⟨encode fs, errb, 0, t⟩ cap fs.length
      = some (outputBytes fs, ⟨[], errb ++ errBytes fs, 0, lastTag t fs⟩)
    ∧ ∀ f : Frame, FrameOK cap f → f.tag ≠ STDOUT →
        ∀ (cs : List Chunk) (errb2 : List Nat) (t2 : Nat),
        dockerPipes.Read ⟨headerBytes f.tag f.payload :: f.payload :: cs, errb2, 0, t2⟩ cap
          = some (ReadResult.ok 0 f.payload,
              ⟨cs, if f.tag = STDERR then errb2 ++ f.payload else errb2, 0, f.tag⟩) := by
  constructor
  · have h := driveN_encode cap hc32 fs hfs [] errb t
    simpa using h
  · intro f hf hnout cs errb2 t2
    obtain ⟨htag, hne, hp32, hcap⟩ := hf
    rw [Read_frame f.tag f.payload cs errb2 t2 cap hp32 hcap hc32,
      dispatch_eval f.tag f.payload _ htag]
    simp only [STDIN, STDOUT, STDERR] at hnout ⊢
    by_cases herr : f.tag = 2 <;> simp [herr, hnout]

theorem demux_output_exact_witness :
    driveN ⟨encode [⟨0, [1]⟩, ⟨1, [2, 3]⟩, ⟨2, [4]⟩, ⟨1, [5]⟩], [9], 0, 0⟩ 8
        (List.length [(⟨0, [1]⟩ : Frame), ⟨1, [2, 3]⟩, ⟨2, [4]⟩, ⟨1, [5]⟩])
      = some (outputBytes [⟨0, [1]⟩, ⟨1, [2, 3]⟩, ⟨2, [4]⟩, ⟨1, [5]⟩],
          ⟨[], [9] ++ errBytes [⟨0, [1]⟩, ⟨1, [2, 3]⟩, ⟨2, [4]⟩, ⟨1, [5]⟩], 0,
            lastTag 0 [⟨0, [1]⟩, ⟨1, [2, 3]⟩, ⟨2, [4]⟩, ⟨1, [5]⟩]⟩) :=
  (demux_output_exact 8 [⟨0, [1]⟩, ⟨1, [2, 3]⟩, ⟨2, [4]⟩, ⟨1, [5]⟩] [9] 0
    (by decide) (by decide)).1

/-- Claim C2: an output frame whose payload exceeds the caller's buffer
capacity is delivered whole across successive `Read` calls with no header
consumed mid-payload; the first call decrements the remaining count by the
buffer capacity (the amount consumed), and every continuation read
decrements by the amount consumed or resets to zero once the buffer covers
what remains. -/
theorem demux_large_frame_continuation (cap : Nat) (p : List Nat) (rest : List Chunk)
    (errb : List Nat) (t : Nat)
    (hp32 : p.length < 4294967296) (hbig : cap < p.length) (hcap0 : 0 < cap)
    (hc32 : cap < 4294967296) :
    driveN ⟨headerBytes STDOUT p :: (chunksOf cap p ++ rest), errb, 0, t⟩ cap
        (chunksOf cap p).length
      = some (p, ⟨rest, errb, 0, STDOUT⟩)
    ∧ dockerPipes.Read ⟨headerBytes STDOUT p :: (chunksOf cap p ++ rest), errb, 0, t⟩ cap
        = some (ReadResult.ok cap (p.take cap),
            ⟨chunksOf cap (p.drop cap) ++ rest, errb, p.length - cap, STDOUT⟩)
    ∧ ∀ (rem : Nat) (d : Chunk) (cs : List Chunk) (errb2 : List Nat),
        rem ≠ 0 → d.length = (if cap < rem then cap else rem) →
        dockerPipes.Read ⟨d :: cs, errb2, rem, STDOUT⟩ cap
          = some (ReadResult.ok d.length d, ⟨cs, errb2, rem - d.length, STDOUT⟩) := by
  have hne : p ≠ [] := by
    intro h
    subst h
    simp at hbig
  have hlen0 : p.length ≠ 0 := fun h => hne (List.length_eq_zero.1 h)
  have htake : (p.take cap).length ≤ cap := by
    simp only [List.length_take]
    omega
  refine ⟨?_, ?_, ?_⟩
  · have hmain := driveN_chunksOf cap hcap0 hc32 p.length p rest errb hne (le_refl _)
    rw [chunksOf_cons cap hcap0 p hne] at hmain ⊢
    rw [List.length_cons] at hmain ⊢
    rw [List.cons_append] at hmain ⊢
    refine Eq.trans (driveN_succ_congr _ _ cap _ ?_) hmain
    rw [headerBytes, Read_after_header STDOUT p.length _ errb t cap hp32]
    simp [dockerPipes.Read, headerStep, hlen0]
  · rw [chunksOf_cons cap hcap0 p hne, List.cons_append, headerBytes,
      Read_after_header STDOUT p.length _ errb t cap hp32,
      payloadStep_eval (p.take cap) _ errb p.length STDOUT cap htake, dispatch_stdout]
    have hmod : cap % 4294967296 = cap := Nat.mod_eq_of_lt hc32
    have htklen : (p.take cap).length = cap := by
      simp only [List.length_take]
      omega
    simp [hmod, hbig, htklen]
  · intro rem d cs errb2 hrem hd
    have hdle : d.length ≤ cap := by
      by_cases h : cap < rem <;> simp [h] at hd <;> omega
    rw [Read_continuation d cs errb2 rem STDOUT cap hrem hdle hc32, dispatch_stdout, hd]
    by_cases h : cap < rem <;> simp [h]

theorem demux_large_frame_continuation_witness :
    driveN ⟨headerBytes STDOUT [1, 2, 3, 4, 5] :: (chunksOf 2 [1, 2, 3, 4, 5] ++ [[9, 9]]),
        [], 0, 0⟩ 2 (chunksOf 2 [1, 2, 3, 4, 5]).length
      = some ([1, 2, 3, 4, 5], ⟨[[9, 9]], [], 0, STDOUT⟩) :=
  (demux_large_frame_continuation 2 [1, 2, 3, 4, 5] [[9, 9]] [] 0
    (by decide) (by decide) (by decide) (by decide)).1

/-- Claim C3: a header read that gets fewer than 8 bytes from the connection
fails with the 8-byte-header framing error and leaves the recorded channel
tag and the remaining count exactly as they were. -/
theorem short_header_protocol_error (c : Chunk) (cs : List Chunk) (errb : List Nat)
    (t cap : Nat) (hshort : c.length < 8) :
    dockerPipes.Read ⟨c :: cs, errb, 0, t⟩ cap
      = some (ReadResult.fail ReadErr.headerNot8, ⟨cs, errb, 0, t⟩) := by
  have h8 : c.length ≠ 8 := by omega
  have hle : c.length ≤ 1024 := by omega
  rw [Read_badHeader c cs errb t cap h8]
  simp [hle]

theorem short_header_protocol_error_witness :
    dockerPipes.Read ⟨[[1, 2, 3], [5]], [7], 0, 4⟩ 16
      = some (ReadResult.fail ReadErr.headerNot8, ⟨[[5]], [7], 0, 4⟩) :=
  short_header_protocol_error [1, 2, 3] [[5]] [7] 4 16 (by decide)

/-- Claim C4: `Call` resets the stderr buffer before delegating, the
demultiplexer appends error-tagged payloads while the call's reads run, and
`StdError` afterwards returns exactly those bytes in arrival order —
whatever the buffer held before the call. -/
theorem call_stderr_accumulation (d : Client) (fs : List Frame) (cap : Nat)
    (hfs : ∀ f ∈ fs, FrameOK cap f) (hc32 : cap < 4294967296)
    (hconn : d.pipes.conn = encode fs) (hrem : d.pipes.bytesRemaining = 0) :
    ∃ d' : Client, Client.Call d cap fs.length = some (outputBytes fs, d')
      ∧ Client.StdError d' = errBytes fs := by
  obtain ⟨id, dc, rc, pipes⟩ := d
  obtain ⟨conn, sb, rem, pn⟩ := pipes
  simp only at hconn hrem
  subst hconn
  subst hrem
  refine ⟨⟨id, dc, rc, ⟨[], errBytes fs, 0, lastTag pn fs⟩⟩, ?_, rfl⟩
  have h := driveN_encode cap hc32 fs hfs [] [] pn
  simp only [List.append_nil, List.nil_append] at h
  simp [Client.Call, h]

theorem call_stderr_accumulation_witness :
    ∃ d' : Client,
      Client.Call ⟨"c1", none, none, ⟨encode [⟨2, [5]⟩, ⟨1, [7, 8]⟩, ⟨2, [6]⟩], [42], 0, 0⟩⟩ 4
          (List.length [(⟨2, [5]⟩ : Frame), ⟨1, [7, 8]⟩, ⟨2, [6]⟩])
        = some (outputBytes [⟨2, [5]⟩, ⟨1, [7, 8]⟩, ⟨2, [6]⟩], d')
      ∧ Client.StdError d' = errBytes [⟨2, [5]⟩, ⟨1, [7, 8]⟩, ⟨2, [6]⟩] :=
  call_stderr_accumulation ⟨"c1", none, none, ⟨encode [⟨2, [5]⟩, ⟨1, [7, 8]⟩, ⟨2, [6]⟩], [42], 0, 0⟩⟩
    [⟨2, [5]⟩, ⟨1, [7, 8]⟩, ⟨2, [6]⟩] 4 (by decide) (by decide) rfl rfl

/-- Claim C5: on an active client, `Close` first requests forced container
removal — whose outcome it discards — and then closes the RPC handle,
returning exactly the RPC handle's close error (none on success); a removal
failure alone never surfaces. -/
theorem close_active_removal_then_rpc (d : Client) (dc : DockerClient) (rc : RpcHandle)
    (hdc : d.dockerClient = some dc) (hrc : d.rpcClient = some rc) :
    Client.Close d
      = (rc.closeErr, { d with rpcClient := none },
          [CloseEffect.removeContainer d.ID true, CloseEffect.rpcClose]) := by
  cases h : rc.closeErr <;>
    simp [Client.Close, closeRpcOnce, hdc, hrc, h]

theorem close_active_removal_then_rpc_witness :
    Client.Close ⟨"c1", some ⟨some "remove failed"⟩, some ⟨some "close failed"⟩, ⟨[], [], 0, 0⟩⟩
      = (some "close failed",
          ⟨"c1", some ⟨some "remove failed"⟩, none, ⟨[], [], 0, 0⟩⟩,
          [CloseEffect.removeContainer "c1" true, CloseEffect.rpcClose]) :=
  close_active_removal_then_rpc
    ⟨"c1", some ⟨some "remove failed"⟩, some ⟨some "close failed"⟩, ⟨[], [], 0, 0⟩⟩
    ⟨some "remove failed"⟩ ⟨some "close failed"⟩ rfl rfl

/-- Claim C8: `Close` on a client that never installed an RPC handle (for
example after a failed `Start`) is safe: the nil-guards mean it is a total
operation that returns no error and leaves the client unchanged. -/
theorem close_without_rpc_handle (d : Client) (h : d.rpcClient = none) :
    (Client.Close d).1 = none ∧ (Client.Close d).2.1 = d := by
  cases hdc : d.dockerClient <;>
    simp [Client.Close, closeRpcOnce, h, hdc]

theorem close_without_rpc_handle_witness :
    (Client.Close ⟨"c2", some ⟨some "remove failed"⟩, none, ⟨[], [], 0, 0⟩⟩).1 = none
    ∧ (Client.Close ⟨"c2", some ⟨some "remove failed"⟩, none, ⟨[], [], 0, 0⟩⟩).2.1
        = ⟨"c2", some ⟨some "remove failed"⟩, none, ⟨[], [], 0, 0⟩⟩ :=
  close_without_rpc_handle ⟨"c2", some ⟨some "remove failed"⟩, none, ⟨[], [], 0, 0⟩⟩ rfl

/-- Claim C6 counterexample: the attach upgrade request comes back as a
non-success HTTP response (404) with a nil transport error — exactly what
`net/http/httputil`'s `ClientConn.Do` returns for a keep-alive error
response — and `AttachStreamingContainer` nevertheless succeeds, hijacking
the connection instead of failing.  This refutes the claim that a
non-success response to the attach request causes the operation to fail. -/
theorem attach_nonsuccess_counterexample :
    AttachStreamingContainer ⟨true, true, true, none, some ⟨404, "no such container"⟩⟩
      = AttachResult.ok := rfl

/-- Claim C6 (amended): `AttachStreamingContainer` fails exactly when the
endpoint URL fails to parse, the transport dial fails, request construction
fails, or the upgrade request reports a non-nil transport error; the HTTP
response's status is never inspected, so any response delivered without a
transport error — success or not — leads to the connection being hijacked
and no error returned. -/
theorem attach_error_characterization (env : AttachEnv) :
    AttachStreamingContainer env = AttachResult.ok ↔
      env.parseOk = true ∧ env.dialOk = true ∧ env.reqOk = true ∧ env.doErr = none := by
  obtain ⟨p, dl, rq, de, dr⟩ := env
  cases p <;> cases dl <;> cases rq <;> cases de <;>
    simp [AttachStreamingContainer]

/-- Claim C7 counterexample: a zero-length output frame followed by another
frame's 8-byte header.  The claim says the zero-length frame is immediately
exhausted and the next bytes are parsed as a fresh header; instead `Read`
performs its payload read anyway, consuming those 8 header bytes and
returning them to the caller as 8 produced output bytes. -/
theorem zero_length_frame_counterexample :
    dockerPipes.Read ⟨[headerBytesL STDOUT 0, headerBytesL STDOUT 3], [], 0, 0⟩ 8
      = some (ReadResult.ok 8 (headerBytesL STDOUT 3), ⟨[], [], 0, STDOUT⟩) := by
  decide

/-- Claim C7 (amended): a header declaring a zero-length payload is parsed,
but the frame is not immediately exhausted: the read path still performs a
raw payload read, so the very next bytes on the connection are consumed and
delivered under the zero-length frame's tag instead of being parsed as a
fresh 8-byte header. -/
theorem zero_length_frame_swallows_next (d : Chunk) (cs : List Chunk) (errb : List Nat)
    (t cap : Nat) (hd : d.length ≤ cap) :
    dockerPipes.Read ⟨headerBytesL STDOUT 0 :: d :: cs, errb, 0, t⟩ cap
      = some (ReadResult.ok d.length d, ⟨cs, errb, 0, STDOUT⟩) := by
  rw [Read_zeroLen STDOUT d cs errb t cap hd, dispatch_stdout]

theorem zero_length_frame_swallows_next_witness :
    dockerPipes.Read ⟨[headerBytesL STDOUT 0, [7, 7], [8]], [], 0, 0⟩ 4
      = some (ReadResult.ok 2 [7, 7], ⟨[[8]], [], 0, STDOUT⟩) :=
  zero_length_frame_swallows_next [7, 7] [[8]] [] 0 4 (by decide)

/-- Claim C9: a header read is accepted only when the raw read returns
exactly 8 bytes; any other count — fewer, or more, as when a header is
coalesced with its payload into one burst — fails with the 8-byte-header
error rather than parsing the first 8 bytes as a header, and the recorded
tag and remaining count are untouched. -/
theorem header_requires_exactly_eight (c : Chunk) (cs : List Chunk) (errb : List Nat)
    (t cap : Nat) (hlen : c.length ≠ 8) :
    dockerPipes.Read ⟨c :: cs, errb, 0, t⟩ cap
      = some (ReadResult.fail ReadErr.headerNot8,
          ⟨if c.length ≤ 1024 then cs else c.drop 1024 :: cs, errb, 0, t⟩) :=
  Read_badHeader c cs errb t cap hlen

theorem header_requires_exactly_eight_witness :
    dockerPipes.Read ⟨[headerBytes STDOUT [9, 9] ++ [9, 9], [5]], [], 0, 0⟩ 16
      = some (ReadResult.fail ReadErr.headerNot8,
          ⟨if (headerBytes STDOUT [9, 9] ++ [9, 9]).length ≤ 1024
              then [[5]] else (headerBytes STDOUT [9, 9] ++ [9, 9]).drop 1024 :: [[5]],
            [], 0, 0⟩) :=
  header_requires_exactly_eight (headerBytes STDOUT [9, 9] ++ [9, 9]) [[5]] [] 0 16 (by decide)

/-- Claim C10: when the pending tag is none of 0, 1, 2, `Read` still
performs the raw payload read — consuming and discarding the unrecognized
frame's payload bytes so the stream position advances past them — and still
updates the remaining count, before returning the unsupported-tag error. -/
theorem unsupported_tag_consumes_payload (tag L : Nat) (d : Chunk) (cs : List Chunk)
    (errb : List Nat) (t cap : Nat)
    (htag : ¬(tag = STDIN ∨ tag = STDOUT ∨ tag = STDERR))
    (hL : L < 4294967296) (hd : d.length ≤ cap) (hc32 : cap < 4294967296) :
    dockerPipes.Read ⟨headerBytesL tag L :: d :: cs, errb, 0, t⟩ cap
      = some (ReadResult.fail (ReadErr.unsupportedPipe tag),
          ⟨cs, errb, if cap < L then L - cap else 0, tag⟩) := by
  rw [Read_after_header tag L (d :: cs) errb t cap hL,
    payloadStep_eval d cs errb L tag cap hd,
    dispatch_unknown tag d _ htag]
  have hmod : cap % 4294967296 = cap := Nat.mod_eq_of_lt hc32
  rw [hmod]

theorem unsupported_tag_consumes_payload_witness :
    dockerPipes.Read ⟨[headerBytesL 3 5, [9, 9], [6]], [], 0, 0⟩ 2
      = some (ReadResult.fail (ReadErr.unsupportedPipe 3),
          ⟨[[6]], [], if 2 < 5 then 5 - 2 else 0, 3⟩) :=
  unsupported_tag_consumes_payload 3 5 [9, 9] [[6]] [] 0 2
    (by decide) (by decide) (by decide) (by decide)

end dockerpc
